import Mathlib

/-!
Shallow embedding of the physics/interaction core of the `rust-demon`
Maxwell's-demon particle simulation.

`f32` values are modelled as real numbers (exact arithmetic); machine
square roots are modelled by `Real.sqrt`.  Each definition mirrors the
corresponding Rust function statement by statement.
-/

namespace Demon

/-- 2-component vector (`ggez::mint::Vector2<f32>`). -/
structure Vec2 where
  x : ℝ
  y : ℝ

/-- 4-component vector (`ggez::mint::Vector4<f32>`) holding the container
boundaries: `x` = left wall, `y` = ceiling, `z` = ground, `w` = right wall. -/
structure Vec4 where
  x : ℝ
  y : ℝ
  z : ℝ
  w : ℝ

/-- `mod_f32` from `src/physics/utils.rs`: absolute value by sign test. -/
noncomputable def mod_f32 (x : ℝ) : ℝ :=
  if x < 0 then -x else x

/-- `Particle` from `src/physics/particles.rs`: position, velocity, force
accumulator and radius; mass is implicitly 1. -/
structure Particle where
  position : Vec2
  velocity : Vec2
  force : Vec2
  radius : ℝ

instance : Inhabited Particle :=
  ⟨⟨⟨0, 0⟩, ⟨0, 0⟩, ⟨0, 0⟩, 0⟩⟩

/-- `Particle::update_velocity`: `vy += 9.81*dt; vy += force.y*dt; vx += force.x*dt`. -/
def Particle.update_velocity (p : Particle) (dt : ℝ) : Particle :=
  { p with velocity := ⟨p.velocity.x + p.force.x * dt,
                        p.velocity.y + 9.81 * dt + p.force.y * dt⟩ }

/-- `Particle::update_position`: `x += vx*dt; y += vy*dt`. -/
def Particle.update_position (p : Particle) (dt : ℝ) : Particle :=
  { p with position := ⟨p.position.x + p.velocity.x * dt,
                        p.position.y + p.velocity.y * dt⟩ }

/-- `Particle::update`: velocity update first, then position update
(semi-implicit Euler). -/
def Particle.update (p : Particle) (dt : ℝ) : Particle :=
  (p.update_velocity dt).update_position dt

/-- `Particle::speed`: Euclidean norm of the velocity. -/
noncomputable def Particle.speed (p : Particle) : ℝ :=
  Real.sqrt (p.velocity.x ^ 2 + p.velocity.y ^ 2)

/-- `Particle::kinetic_energy`: `0.5 * speed^2`. -/
noncomputable def Particle.kinetic_energy (p : Particle) : ℝ :=
  0.5 * p.speed ^ 2

/-- `ParticleContainer` from `src/physics/container.rs`. -/
structure ParticleContainer where
  boundaries : Vec4
  demon_looking : Bool

/-- `ParticleContainer::collision`: wall tests in program order (left wall,
right wall, ceiling, ground, then the demon gate at `(w - x)/2`), each test
reading the particle state left by the previous one. -/
noncomputable def ParticleContainer.collision (c : ParticleContainer) (p0 : Particle) :
    Particle :=
  let middle := (c.boundaries.w - c.boundaries.x) / 2
  let p1 := if p0.radius ≥ mod_f32 (c.boundaries.x - p0.position.x) then
      { p0 with position := ⟨p0.radius, p0.position.y⟩,
                velocity := ⟨-p0.velocity.x, p0.velocity.y⟩ }
    else p0
  let p2 := if p1.radius ≥ mod_f32 (c.boundaries.w - p1.position.x) then
      { p1 with position := ⟨c.boundaries.w - p1.radius, p1.position.y⟩,
                velocity := ⟨-p1.velocity.x, p1.velocity.y⟩ }
    else p1
  let p3 := if p2.radius ≥ mod_f32 (c.boundaries.y - p2.position.y) then
      { p2 with position := ⟨p2.position.x, p2.radius⟩,
                velocity := ⟨p2.velocity.x, -p2.velocity.y⟩ }
    else p2
  let p4 := if p3.radius ≥ mod_f32 (c.boundaries.z - p3.position.y) then
      { p3 with position := ⟨p3.position.x, c.boundaries.z - p3.radius⟩,
                velocity := ⟨p3.velocity.x, -p3.velocity.y⟩ }
    else p3
  if p4.radius ≥ mod_f32 (middle - p4.position.x) ∧ c.demon_looking then
    let sq := p4.velocity.x ^ 2 + p4.velocity.y ^ 2
    let speed := Real.sqrt sq
    if p4.velocity.x ≤ 0 ∧ speed < 140 then
      { p4 with position := ⟨p4.position.x + p4.radius, p4.position.y⟩,
                velocity := ⟨-p4.velocity.x, p4.velocity.y⟩ }
    else if p4.velocity.x ≥ 0 ∧ speed > 10 then
      { p4 with position := ⟨p4.position.x - p4.radius, p4.position.y⟩,
                velocity := ⟨-p4.velocity.x, p4.velocity.y⟩ }
    else p4
  else p4

/-- `CoulombLaw` from `src/physics/laws.rs`. -/
structure CoulombLaw where
  k : ℝ
  softening : ℝ
  cutoff : ℝ

/-- `CoulombLaw::resolve`: returns the flag together with the updated pair
(the Rust code mutates `particle1` and `particle2` in place). -/
noncomputable def CoulombLaw.resolve (c : CoulombLaw) (p1 p2 : Particle) :
    Bool × Particle × Particle :=
  let p1_charge : ℝ := 0.001234
  let p2_charge : ℝ := 0.001234
  let dx := p2.position.x - p1.position.x
  let dy := p2.position.y - p1.position.y
  let distance_sq0 := dx * dx + dy * dy
  let distance_sq1 := distance_sq0 + c.softening * c.softening
  let distance := Real.sqrt distance_sq1
  if distance > c.cutoff then (true, p1, p2)
  else
    let distance_sq := if distance_sq1 < p1.radius * 0.1 then p1.radius * 0.1
      else distance_sq1
    let force_magnitude := c.k * (p1_charge * p2_charge) / distance_sq
    let q1 := { p1 with force := ⟨p1.force.x - force_magnitude * dx / distance,
                                  p1.force.y - force_magnitude * dy / distance⟩ }
    let q2 := { p2 with force := ⟨p2.force.x + force_magnitude * dx / distance,
                                  p2.force.y + force_magnitude * dy / distance⟩ }
    (true, q1, q2)

/-- `ImpulseCollision` from `src/physics/laws.rs`: declared parameters of the
impulse law. -/
structure ImpulseCollision where
  restitution : ℝ
  correction_factor : ℝ
  penetration_slop : ℝ

/-- `ImpulseCollision::resolve`: overlap test, degenerate-distance skip,
relative-velocity/normal dot-product skip, impulse application and positional
separation, exactly as in the Rust source. -/
noncomputable def ImpulseCollision.resolve (_c : ImpulseCollision) (p1 p2 : Particle) :
    Bool × Particle × Particle :=
  let dx := p2.position.x - p1.position.x
  let dy := p2.position.y - p1.position.y
  let distance_sq := dx * dx + dy * dy
  let radius_sum := p1.radius + p2.radius
  if distance_sq < radius_sum * radius_sum then
    let distance := Real.sqrt distance_sq
    if distance = 0 then (true, p1, p2)
    else
      let nx := dx / distance
      let ny := dy / distance
      let rvx := p1.velocity.x - p2.velocity.x
      let rvy := p1.velocity.y - p2.velocity.y
      let rel_vel_dot_norm := rvx * nx + rvy * ny
      if rel_vel_dot_norm > 0 then (true, p1, p2)
      else
        let impulse := rel_vel_dot_norm
        let q1 := { p1 with velocity := ⟨p1.velocity.x - impulse * nx,
                                         p1.velocity.y - impulse * ny⟩ }
        let q2 := { p2 with velocity := ⟨p2.velocity.x + impulse * nx,
                                         p2.velocity.y + impulse * ny⟩ }
        let overlap := 0.5 * (radius_sum - distance)
        let r1 := { q1 with position := ⟨q1.position.x - overlap * nx,
                                         q1.position.y - overlap * ny⟩ }
        let r2 := { q2 with position := ⟨q2.position.x + overlap * nx,
                                         q2.position.y + overlap * ny⟩ }
        (true, r1, r2)
  else (false, p1, p2)

/-- Modelled f32 division for `average_kinetic_energy`: IEEE-754 division of
`0.0` by `0.0` (and any division by zero) produces a non-finite value
(NaN or an infinity); the non-finite outcome is modelled as `none`. -/
noncomputable def f32Div (a b : ℝ) : Option ℝ :=
  if b = 0 then none else some (a / b)

/-- `MainState::average_kinetic_energy` from `src/rendering/state.rs`:
sum of the particles' kinetic energies divided by the particle count
(the count is taken before any emptiness check — there is none). -/
noncomputable def average_kinetic_energy (ps : List Particle) : Option ℝ :=
  f32Div (ps.foldl (fun acc p => acc + p.kinetic_energy) 0) (ps.length : ℝ)

/-- The sequence of index pairs `(i, j)` on which
`MainState::compute_single_interaction` invokes `law.resolve`, in program
order: `for i in 0..len { for j in (i+1)..len { law.resolve(&mut p[i], &mut p[j]) } }`. -/
def interactionPairs (n : ℕ) : List (ℕ × ℕ) :=
  (List.range n).flatMap fun i =>
    (List.range' (i + 1) (n - (i + 1))).map fun j => (i, j)

/-- `MainState::compute_single_interaction`, parametrised by the active law's
`resolve` (trait-object dispatch in the source): reset every force
accumulator (`Particle::reset_force` is invoked in `state.rs`; its body is
modelled from the spec, which states the accumulator is reset to zero every
step), fold `resolve` over the pair sequence, then integrate each particle
and apply the container collision. -/
noncomputable def compute_single_interaction
    (resolve : Particle → Particle → Bool × Particle × Particle)
    (container : ParticleContainer) (dt : ℝ) (ps : List Particle) :
    List Particle :=
  let ps0 := ps.map fun p => { p with force := (⟨0, 0⟩ : Vec2) }
  let ps1 := (interactionPairs ps0.length).foldl
    (fun qs ij =>
      let r := resolve (qs.getD ij.1 default) (qs.getD ij.2 default)
      (qs.set ij.1 r.2.1).set ij.2 r.2.2)
    ps0
  ps1.map fun p => container.collision (p.update dt)

/-! ### Helper lemmas -/

theorem mod_f32_eq_abs (x : ℝ) : mod_f32 x = |x| := by
  unfold mod_f32
  by_cases h : x < 0
  · rw [if_pos h, abs_of_neg h]
  · rw [if_neg h, abs_of_nonneg (not_lt.mp h)]

/-! ### Claims -/

/-- C5: `Particle.update` is semi-implicit Euler with an unconditional
gravity term: the new velocity is the old velocity plus
`(gravity + force) * dt` with gravity `(0, 9.81)`, and the new position is
the old position plus the *updated* velocity times `dt`; force and radius
are untouched.  This holds for every particle (hence for every force
accumulator value) and every `dt`. -/
theorem update_semi_implicit_euler (p : Particle) (dt : ℝ) :
    (p.update dt).velocity.x = p.velocity.x + (0 + p.force.x) * dt ∧
    (p.update dt).velocity.y = p.velocity.y + (9.81 + p.force.y) * dt ∧
    (p.update dt).position.x = p.position.x + (p.update dt).velocity.x * dt ∧
    (p.update dt).position.y = p.position.y + (p.update dt).velocity.y * dt ∧
    (p.update dt).force = p.force ∧
    (p.update dt).radius = p.radius := by
  refine ⟨?_, ?_, ?_, ?_, ?_, ?_⟩ <;>
    simp only [Particle.update, Particle.update_position, Particle.update_velocity] <;>
    first
    | rfl
    | ring

/-- C9: `ImpulseCollision.resolve` never reads `restitution`,
`correction_factor` or `penetration_slop`: any two configurations produce
identical return values and identical particle updates on every input. -/
theorem impulse_resolve_config_independent (c1 c2 : ImpulseCollision)
    (p1 p2 : Particle) :
    c1.resolve p1 p2 = c2.resolve p1 p2 := rfl

/-- C4: `ImpulseCollision.resolve` conserves the vector sum of the two
velocities exactly, in every branch (impulse applied, non-overlapping,
zero distance, and dot-product skip). -/
theorem impulse_resolve_momentum_conserved (c : ImpulseCollision)
    (p1 p2 : Particle) :
    (c.resolve p1 p2).2.1.velocity.x + (c.resolve p1 p2).2.2.velocity.x
      = p1.velocity.x + p2.velocity.x ∧
    (c.resolve p1 p2).2.1.velocity.y + (c.resolve p1 p2).2.2.velocity.y
      = p1.velocity.y + p2.velocity.y := by
  simp only [ImpulseCollision.resolve]
  split_ifs <;> constructor <;> simp

/-- C8 counterexample: on the empty particle list
`average_kinetic_energy` divides `0.0` by `0.0`, which is a non-finite
(NaN) result — modelled as `none` — not a defined finite sentinel value. -/
theorem average_ke_empty_not_finite :
    average_kinetic_energy [] = none := by
  simp [average_kinetic_energy, f32Div]

/-- C8 amended: `average_kinetic_energy` produces a non-finite result
(modelled as `none`) exactly when the particle list is empty; there is no
N = 0 guard and no sentinel value. -/
theorem average_ke_none_iff_empty (ps : List Particle) :
    average_kinetic_energy ps = none ↔ ps = [] := by
  rcases ps with _ | ⟨p, ps⟩
  · simp [average_kinetic_energy, f32Div]
  · have hne : (↑ps.length + 1 : ℝ) ≠ 0 := by positivity
    simp [average_kinetic_energy, f32Div, hne]

/-- C7: when the (softened) separation already exceeds the cutoff because
the raw Euclidean distance does, `CoulombLaw.resolve` returns `true` and
leaves both particles — in particular both force accumulators — exactly
unchanged. -/
theorem coulomb_cutoff_noop (c : CoulombLaw) (p1 p2 : Particle)
    (h : Real.sqrt ((p2.position.x - p1.position.x) * (p2.position.x - p1.position.x) +
          (p2.position.y - p1.position.y) * (p2.position.y - p1.position.y))
        > c.cutoff) :
    c.resolve p1 p2 = (true, p1, p2) := by
  simp only [CoulombLaw.resolve]
  rw [if_pos]
  exact lt_of_lt_of_le h
    (Real.sqrt_le_sqrt (le_add_of_nonneg_right (mul_self_nonneg c.softening)))

/-- C7 witness: two particles 3000 apart with cutoff 2000 are left
unchanged and `resolve` returns `true`. -/
theorem coulomb_cutoff_noop_witness :
    (Real.sqrt ((3000 - 0) * ((3000:ℝ) - 0) + (0 - 0) * ((0:ℝ) - 0)) > (2000:ℝ)) ∧
    CoulombLaw.resolve ⟨8.9875517923e9, 0.001, 2000⟩
      ⟨⟨0, 0⟩, ⟨0, 0⟩, ⟨0, 0⟩, 5⟩ ⟨⟨3000, 0⟩, ⟨0, 0⟩, ⟨0, 0⟩, 5⟩
      = (true, ⟨⟨0, 0⟩, ⟨0, 0⟩, ⟨0, 0⟩, 5⟩, ⟨⟨3000, 0⟩, ⟨0, 0⟩, ⟨0, 0⟩, 5⟩) := by
  have h : Real.sqrt ((3000 - 0) * ((3000:ℝ) - 0) + (0 - 0) * ((0:ℝ) - 0))
      > (2000:ℝ) := by
    rw [show ((3000:ℝ) - 0) * ((3000:ℝ) - 0) + (0 - 0) * ((0:ℝ) - 0) = 3000 ^ 2
        by norm_num]
    rw [Real.sqrt_sq (by norm_num : (0:ℝ) ≤ 3000)]
    norm_num
  exact ⟨h, coulomb_cutoff_noop _ _ _ h⟩

/-- C1: the head-on scenario the spec describes is in fact *skipped* by the
code.  For the unit-mass pair of radius-5 particles with centres 8 apart on
the x-axis, the left one moving right at (5,0) and the right one moving
left at (−5,0), the relative velocity `v1 − v2 = (10,0)` has positive dot
product with the normal from p1 to p2, so the early-out branch (whose
comment claims it skips *separating* pairs) fires: `resolve` returns `true`
with both particles completely unchanged — no velocity exchange, no
repositioning. -/
theorem impulse_head_on_pair_skipped :
    ImpulseCollision.resolve ⟨1, 0.8, 0.01⟩
      ⟨⟨0, 0⟩, ⟨5, 0⟩, ⟨0, 0⟩, 5⟩ ⟨⟨8, 0⟩, ⟨-5, 0⟩, ⟨0, 0⟩, 5⟩
      = (true, ⟨⟨0, 0⟩, ⟨5, 0⟩, ⟨0, 0⟩, 5⟩, ⟨⟨8, 0⟩, ⟨-5, 0⟩, ⟨0, 0⟩, 5⟩) := by
  have h64 : Real.sqrt (64:ℝ) = 8 := by
    rw [show (64:ℝ) = 8 ^ 2 by norm_num]
    exact Real.sqrt_sq (by norm_num)
  simp only [ImpulseCollision.resolve]
  norm_num [h64]

/-- C10: whenever `ImpulseCollision.resolve` takes its impulse branch
(the circles overlap, the distance is nonzero and the
relative-velocity/normal dot product is not positive), the total kinetic
energy `0.5*|v1|^2 + 0.5*|v2|^2` of the pair is exactly preserved: each
velocity changes by the scalar `(v1 - v2)·n` along the unit normal `n`,
subtracted from particle 1 and added to particle 2. -/
theorem impulse_resolve_kinetic_energy_conserved (c : ImpulseCollision)
    (p1 p2 : Particle) (dx dy : ℝ)
    (hdx : dx = p2.position.x - p1.position.x)
    (hdy : dy = p2.position.y - p1.position.y)
    (hover : dx * dx + dy * dy < (p1.radius + p2.radius) * (p1.radius + p2.radius))
    (hd0 : Real.sqrt (dx * dx + dy * dy) ≠ 0)
    (hdot : ¬ ((p1.velocity.x - p2.velocity.x) * (dx / Real.sqrt (dx * dx + dy * dy)) +
               (p1.velocity.y - p2.velocity.y) * (dy / Real.sqrt (dx * dx + dy * dy))
               > 0)) :
    0.5 * ((c.resolve p1 p2).2.1.velocity.x ^ 2 + (c.resolve p1 p2).2.1.velocity.y ^ 2) +
    0.5 * ((c.resolve p1 p2).2.2.velocity.x ^ 2 + (c.resolve p1 p2).2.2.velocity.y ^ 2)
    = 0.5 * (p1.velocity.x ^ 2 + p1.velocity.y ^ 2) +
      0.5 * (p2.velocity.x ^ 2 + p2.velocity.y ^ 2) := by
  subst hdx
  subst hdy
  simp only [ImpulseCollision.resolve]
  rw [if_pos hover, if_neg hd0, if_neg hdot]
  dsimp only
  have hA : (0:ℝ) ≤ (p2.position.x - p1.position.x) * (p2.position.x - p1.position.x) +
      (p2.position.y - p1.position.y) * (p2.position.y - p1.position.y) :=
    add_nonneg (mul_self_nonneg _) (mul_self_nonneg _)
  have h2 : Real.sqrt ((p2.position.x - p1.position.x) * (p2.position.x - p1.position.x) +
      (p2.position.y - p1.position.y) * (p2.position.y - p1.position.y)) ^ 2
      = (p2.position.x - p1.position.x) * (p2.position.x - p1.position.x) +
        (p2.position.y - p1.position.y) * (p2.position.y - p1.position.y) :=
    Real.sq_sqrt hA
  have hAne : (p2.position.x - p1.position.x) * (p2.position.x - p1.position.x) +
      (p2.position.y - p1.position.y) * (p2.position.y - p1.position.y) ≠ 0 := by
    intro h
    exact hd0 (by rw [h, Real.sqrt_zero])
  have hunit : ((p2.position.x - p1.position.x) /
        Real.sqrt ((p2.position.x - p1.position.x) * (p2.position.x - p1.position.x) +
          (p2.position.y - p1.position.y) * (p2.position.y - p1.position.y))) ^ 2 +
      ((p2.position.y - p1.position.y) /
        Real.sqrt ((p2.position.x - p1.position.x) * (p2.position.x - p1.position.x) +
          (p2.position.y - p1.position.y) * (p2.position.y - p1.position.y))) ^ 2 = 1 := by
    have hsplit : ((p2.position.x - p1.position.x) /
          Real.sqrt ((p2.position.x - p1.position.x) * (p2.position.x - p1.position.x) +
            (p2.position.y - p1.position.y) * (p2.position.y - p1.position.y))) ^ 2 +
        ((p2.position.y - p1.position.y) /
          Real.sqrt ((p2.position.x - p1.position.x) * (p2.position.x - p1.position.x) +
            (p2.position.y - p1.position.y) * (p2.position.y - p1.position.y))) ^ 2
        = ((p2.position.x - p1.position.x) * (p2.position.x - p1.position.x) +
           (p2.position.y - p1.position.y) * (p2.position.y - p1.position.y)) /
          Real.sqrt ((p2.position.x - p1.position.x) * (p2.position.x - p1.position.x) +
            (p2.position.y - p1.position.y) * (p2.position.y - p1.position.y)) ^ 2 := by
      ring
    rw [hsplit, h2, div_self hAne]
  linear_combination
    (((p1.velocity.x - p2.velocity.x) * ((p2.position.x - p1.position.x) /
        Real.sqrt ((p2.position.x - p1.position.x) * (p2.position.x - p1.position.x) +
          (p2.position.y - p1.position.y) * (p2.position.y - p1.position.y))) +
      (p1.velocity.y - p2.velocity.y) * ((p2.position.y - p1.position.y) /
        Real.sqrt ((p2.position.x - p1.position.x) * (p2.position.x - p1.position.x) +
          (p2.position.y - p1.position.y) * (p2.position.y - p1.position.y)))) ^ 2) * hunit

/-- C10 witness: the overlapping, non-degenerate, impulse-eligible pair at
centres (0,0) and (8,0) with velocities (−5,0) and (5,0) conserves total
kinetic energy through `resolve`. -/
theorem impulse_resolve_kinetic_energy_conserved_witness :
    ((8:ℝ) * 8 + 0 * 0 < ((5:ℝ) + 5) * (5 + 5)) ∧
    Real.sqrt ((8:ℝ) * 8 + 0 * 0) ≠ 0 ∧
    (¬ (((-5:ℝ) - 5) * (8 / Real.sqrt ((8:ℝ) * 8 + 0 * 0)) +
        ((0:ℝ) - 0) * (0 / Real.sqrt ((8:ℝ) * 8 + 0 * 0)) > 0)) ∧
    0.5 * ((ImpulseCollision.resolve ⟨1, 0.8, 0.01⟩
        ⟨⟨0, 0⟩, ⟨-5, 0⟩, ⟨0, 0⟩, 5⟩ ⟨⟨8, 0⟩, ⟨5, 0⟩, ⟨0, 0⟩, 5⟩).2.1.velocity.x ^ 2 +
      (ImpulseCollision.resolve ⟨1, 0.8, 0.01⟩
        ⟨⟨0, 0⟩, ⟨-5, 0⟩, ⟨0, 0⟩, 5⟩ ⟨⟨8, 0⟩, ⟨5, 0⟩, ⟨0, 0⟩, 5⟩).2.1.velocity.y ^ 2) +
    0.5 * ((ImpulseCollision.resolve ⟨1, 0.8, 0.01⟩
        ⟨⟨0, 0⟩, ⟨-5, 0⟩, ⟨0, 0⟩, 5⟩ ⟨⟨8, 0⟩, ⟨5, 0⟩, ⟨0, 0⟩, 5⟩).2.2.velocity.x ^ 2 +
      (ImpulseCollision.resolve ⟨1, 0.8, 0.01⟩
        ⟨⟨0, 0⟩, ⟨-5, 0⟩, ⟨0, 0⟩, 5⟩ ⟨⟨8, 0⟩, ⟨5, 0⟩, ⟨0, 0⟩, 5⟩).2.2.velocity.y ^ 2)
    = 0.5 * ((-5:ℝ) ^ 2 + 0 ^ 2) + 0.5 * ((5:ℝ) ^ 2 + 0 ^ 2) := by
  have h8 : Real.sqrt ((8:ℝ) * 8 + 0 * 0) = 8 := by
    rw [show (8:ℝ) * 8 + 0 * 0 = 8 ^ 2 by norm_num]
    exact Real.sqrt_sq (by norm_num)
  refine ⟨by norm_num, by rw [h8]; norm_num, by rw [h8]; norm_num, ?_⟩
  exact impulse_resolve_kinetic_energy_conserved ⟨1, 0.8, 0.01⟩
    ⟨⟨0, 0⟩, ⟨-5, 0⟩, ⟨0, 0⟩, 5⟩ ⟨⟨8, 0⟩, ⟨5, 0⟩, ⟨0, 0⟩, 5⟩ 8 0
    (by norm_num) (by norm_num) (by norm_num)
    (by rw [h8]; norm_num) (by rw [h8]; norm_num)

set_option maxHeartbeats 1000000 in
/-- C2: for a particle within its radius of the gate plane at the
container's horizontal midline (with `x_min = 0`, so `(w − x)/2` is the
midline) and strictly farther than its radius from all four outer walls,
`collision` with the gate flag set reflects the particle — negating
`velocity.x` and shifting `position.x` by its radius — precisely when
`velocity.x ≤ 0` and speed < 140, or `velocity.x ≥ 0` and speed > 10;
otherwise (leftward at speed ≥ 140, rightward at speed ≤ 10) the particle
passes through unchanged.  With the gate flag unset the particle is
untouched. -/
theorem gate_selectivity (b : Vec4) (p : Particle)
    (hx0 : b.x = 0)
    (hL : p.radius < mod_f32 (b.x - p.position.x))
    (hR : p.radius < mod_f32 (b.w - p.position.x))
    (hT : p.radius < mod_f32 (b.y - p.position.y))
    (hB : p.radius < mod_f32 (b.z - p.position.y))
    (hG : mod_f32 (b.w / 2 - p.position.x) ≤ p.radius) :
    ParticleContainer.collision ⟨b, false⟩ p = p ∧
    ((p.velocity.x ≤ 0 ∧ Real.sqrt (p.velocity.x ^ 2 + p.velocity.y ^ 2) < 140 →
       ParticleContainer.collision ⟨b, true⟩ p =
         { p with position := ⟨p.position.x + p.radius, p.position.y⟩,
                  velocity := ⟨-p.velocity.x, p.velocity.y⟩ }) ∧
     (¬ (p.velocity.x ≤ 0 ∧ Real.sqrt (p.velocity.x ^ 2 + p.velocity.y ^ 2) < 140) →
      p.velocity.x ≥ 0 ∧ Real.sqrt (p.velocity.x ^ 2 + p.velocity.y ^ 2) > 10 →
       ParticleContainer.collision ⟨b, true⟩ p =
         { p with position := ⟨p.position.x - p.radius, p.position.y⟩,
                  velocity := ⟨-p.velocity.x, p.velocity.y⟩ }) ∧
     (¬ (p.velocity.x ≤ 0 ∧ Real.sqrt (p.velocity.x ^ 2 + p.velocity.y ^ 2) < 140) →
      ¬ (p.velocity.x ≥ 0 ∧ Real.sqrt (p.velocity.x ^ 2 + p.velocity.y ^ 2) > 10) →
       ParticleContainer.collision ⟨b, true⟩ p = p)) := by
  have nL : ¬ (p.radius ≥ mod_f32 (b.x - p.position.x)) := not_le.mpr hL
  have nR : ¬ (p.radius ≥ mod_f32 (b.w - p.position.x)) := not_le.mpr hR
  have nT : ¬ (p.radius ≥ mod_f32 (b.y - p.position.y)) := not_le.mpr hT
  have nB : ¬ (p.radius ≥ mod_f32 (b.z - p.position.y)) := not_le.mpr hB
  have hG' : p.radius ≥ mod_f32 ((b.w - b.x) / 2 - p.position.x) := by
    rw [hx0, sub_zero]; exact hG
  refine ⟨?_, ?_, ?_, ?_⟩
  · simp only [ParticleContainer.collision]
    rw [if_neg nL, if_neg nR, if_neg nT, if_neg nB, if_neg (by simp)]
  · intro h1
    simp only [ParticleContainer.collision]
    rw [if_neg nL, if_neg nR, if_neg nT, if_neg nB, if_pos ⟨hG', trivial⟩, if_pos h1]
  · intro hn1 h2
    simp only [ParticleContainer.collision]
    rw [if_neg nL, if_neg nR, if_neg nT, if_neg nB, if_pos ⟨hG', trivial⟩, if_neg hn1,
      if_pos h2]
  · intro hn1 hn2
    simp only [ParticleContainer.collision]
    rw [if_neg nL, if_neg nR, if_neg nT, if_neg nB, if_pos ⟨hG', trivial⟩, if_neg hn1,
      if_neg hn2]

/-- C2 witness: gate active, particle of radius 5 at (498, 500) in a
1000×1000 container (gate plane x = 500), moving left at speed 100 < 140:
it is reflected to (503, 500) with velocity (100, 0). -/
theorem gate_selectivity_witness :
    ((5:ℝ) < mod_f32 (0 - 498)) ∧ ((5:ℝ) < mod_f32 (1000 - 498)) ∧
    ((5:ℝ) < mod_f32 (0 - 500)) ∧ ((5:ℝ) < mod_f32 (1000 - 500)) ∧
    (mod_f32 ((1000:ℝ) / 2 - 498) ≤ 5) ∧
    ParticleContainer.collision ⟨⟨0, 0, 1000, 1000⟩, true⟩
      ⟨⟨498, 500⟩, ⟨-100, 0⟩, ⟨0, 0⟩, 5⟩
      = ⟨⟨503, 500⟩, ⟨100, 0⟩, ⟨0, 0⟩, 5⟩ := by
  have h100 : Real.sqrt ((-100:ℝ) ^ 2 + (0:ℝ) ^ 2) = 100 := by
    rw [show (-100:ℝ) ^ 2 + (0:ℝ) ^ 2 = 100 ^ 2 by norm_num]
    exact Real.sqrt_sq (by norm_num)
  have hsp : Real.sqrt ((-100:ℝ) ^ 2 + (0:ℝ) ^ 2) < 140 := by rw [h100]; norm_num
  have hmain := gate_selectivity ⟨0, 0, 1000, 1000⟩
    ⟨⟨498, 500⟩, ⟨-100, 0⟩, ⟨0, 0⟩, 5⟩ rfl
    (by norm_num [mod_f32]) (by norm_num [mod_f32]) (by norm_num [mod_f32])
    (by norm_num [mod_f32]) (by norm_num [mod_f32])
  refine ⟨by norm_num [mod_f32], by norm_num [mod_f32], by norm_num [mod_f32],
    by norm_num [mod_f32], by norm_num [mod_f32], ?_⟩
  have h := hmain.2.1 ⟨by norm_num, hsp⟩
  rw [h]
  norm_num

/-- C3 counterexample: in a container with `x_min = 100`, a particle at
x = 104 of radius 5 (within its radius of the left wall only) is clamped to
`position.x = radius = 5`, not to `x_min + radius`, so its distance to the
left wall afterwards is 95, not its radius. -/
theorem wall_flush_counterexample :
    ((100:ℝ) < 1000) ∧ ((0:ℝ) < 1000) ∧
    (mod_f32 ((100:ℝ) - 104) ≤ 5) ∧ ((5:ℝ) < mod_f32 (1000 - 104)) ∧
    ((5:ℝ) < mod_f32 (0 - 500)) ∧ ((5:ℝ) < mod_f32 (1000 - 500)) ∧
    mod_f32 (100 - (ParticleContainer.collision ⟨⟨100, 0, 1000, 1000⟩, false⟩
      ⟨⟨104, 500⟩, ⟨-3, 0⟩, ⟨0, 0⟩, 5⟩).position.x) ≠ 5 := by
  have hcol : ParticleContainer.collision ⟨⟨100, 0, 1000, 1000⟩, false⟩
      ⟨⟨104, 500⟩, ⟨-3, 0⟩, ⟨0, 0⟩, 5⟩
      = ⟨⟨5, 500⟩, ⟨3, 0⟩, ⟨0, 0⟩, 5⟩ := by
    simp only [ParticleContainer.collision]
    norm_num [mod_f32]
  rw [hcol]
  norm_num [mod_f32]

set_option maxHeartbeats 1000000 in
/-- C3 amended: for containers with `x_min = 0` and `y_min = 0` (as the
program constructs them), positive wall coordinates, and a container wider
and taller than the particle's diameter, a particle of positive radius
within its radius of exactly one wall is clamped flush against that wall
(distance to the wall exactly the radius), the perpendicular velocity
component is negated and the parallel component (hence the speed) is
unchanged. -/
theorem wall_flush_reflection (b : Vec4) (p : Particle)
    (hx0 : b.x = 0) (hy0 : b.y = 0)
    (_hw : 0 < b.w) (_hz : 0 < b.z)
    (hr : 0 < p.radius)
    (hdw : 2 * p.radius < b.w) (hdz : 2 * p.radius < b.z) :
    (mod_f32 (b.x - p.position.x) ≤ p.radius →
     p.radius < mod_f32 (b.w - p.position.x) →
     p.radius < mod_f32 (b.y - p.position.y) →
     p.radius < mod_f32 (b.z - p.position.y) →
       mod_f32 (b.x - (ParticleContainer.collision ⟨b, false⟩ p).position.x)
         = p.radius ∧
       (ParticleContainer.collision ⟨b, false⟩ p).velocity.x = -p.velocity.x ∧
       (ParticleContainer.collision ⟨b, false⟩ p).velocity.y = p.velocity.y ∧
       (ParticleContainer.collision ⟨b, false⟩ p).position.y = p.position.y) ∧
    (p.radius < mod_f32 (b.x - p.position.x) →
     mod_f32 (b.w - p.position.x) ≤ p.radius →
     p.radius < mod_f32 (b.y - p.position.y) →
     p.radius < mod_f32 (b.z - p.position.y) →
       mod_f32 (b.w - (ParticleContainer.collision ⟨b, false⟩ p).position.x)
         = p.radius ∧
       (ParticleContainer.collision ⟨b, false⟩ p).velocity.x = -p.velocity.x ∧
       (ParticleContainer.collision ⟨b, false⟩ p).velocity.y = p.velocity.y ∧
       (ParticleContainer.collision ⟨b, false⟩ p).position.y = p.position.y) ∧
    (p.radius < mod_f32 (b.x - p.position.x) →
     p.radius < mod_f32 (b.w - p.position.x) →
     mod_f32 (b.y - p.position.y) ≤ p.radius →
     p.radius < mod_f32 (b.z - p.position.y) →
       mod_f32 (b.y - (ParticleContainer.collision ⟨b, false⟩ p).position.y)
         = p.radius ∧
       (ParticleContainer.collision ⟨b, false⟩ p).velocity.y = -p.velocity.y ∧
       (ParticleContainer.collision ⟨b, false⟩ p).velocity.x = p.velocity.x ∧
       (ParticleContainer.collision ⟨b, false⟩ p).position.x = p.position.x) ∧
    (p.radius < mod_f32 (b.x - p.position.x) →
     p.radius < mod_f32 (b.w - p.position.x) →
     p.radius < mod_f32 (b.y - p.position.y) →
     mod_f32 (b.z - p.position.y) ≤ p.radius →
       mod_f32 (b.z - (ParticleContainer.collision ⟨b, false⟩ p).position.y)
         = p.radius ∧
       (ParticleContainer.collision ⟨b, false⟩ p).velocity.y = -p.velocity.y ∧
       (ParticleContainer.collision ⟨b, false⟩ p).velocity.x = p.velocity.x ∧
       (ParticleContainer.collision ⟨b, false⟩ p).position.x = p.position.x) := by
  have hmodr : mod_f32 (-p.radius) = p.radius := by
    rw [mod_f32_eq_abs, abs_neg, abs_of_pos hr]
  have hmodr' : mod_f32 p.radius = p.radius := by
    rw [mod_f32_eq_abs, abs_of_pos hr]
  have hwall2 : ¬ (p.radius ≥ mod_f32 (b.w - p.radius)) := by
    rw [mod_f32_eq_abs, abs_of_nonneg (by linarith)]
    exact not_le.mpr (by linarith)
  have hwall4 : ¬ (p.radius ≥ mod_f32 (b.z - p.radius)) := by
    rw [mod_f32_eq_abs, abs_of_nonneg (by linarith)]
    exact not_le.mpr (by linarith)
  refine ⟨?_, ?_, ?_, ?_⟩
  · intro h1 h2 h3 h4
    have hcol : ParticleContainer.collision ⟨b, false⟩ p
        = { p with position := ⟨p.radius, p.position.y⟩,
                   velocity := ⟨-p.velocity.x, p.velocity.y⟩ } := by
      simp only [ParticleContainer.collision]
      rw [if_pos h1]
      dsimp only
      rw [if_neg hwall2, if_neg (not_le.mpr h3), if_neg (not_le.mpr h4),
        if_neg (by simp)]
    rw [hcol]
    exact ⟨by rw [hx0]; dsimp only; rw [zero_sub, hmodr], rfl, rfl, rfl⟩
  · intro h1 h2 h3 h4
    have hcol : ParticleContainer.collision ⟨b, false⟩ p
        = { p with position := ⟨b.w - p.radius, p.position.y⟩,
                   velocity := ⟨-p.velocity.x, p.velocity.y⟩ } := by
      simp only [ParticleContainer.collision]
      rw [if_neg (not_le.mpr h1), if_pos h2]
      dsimp only
      rw [if_neg (not_le.mpr h3), if_neg (not_le.mpr h4), if_neg (by simp)]
    rw [hcol]
    refine ⟨?_, rfl, rfl, rfl⟩
    dsimp only
    rw [show b.w - (b.w - p.radius) = p.radius by ring, hmodr']
  · intro h1 h2 h3 h4
    have hcol : ParticleContainer.collision ⟨b, false⟩ p
        = { p with position := ⟨p.position.x, p.radius⟩,
                   velocity := ⟨p.velocity.x, -p.velocity.y⟩ } := by
      simp only [ParticleContainer.collision]
      rw [if_neg (not_le.mpr h1), if_neg (not_le.mpr h2), if_pos h3]
      dsimp only
      rw [if_neg hwall4, if_neg (by simp)]
    rw [hcol]
    exact ⟨by rw [hy0]; dsimp only; rw [zero_sub, hmodr], rfl, rfl, rfl⟩
  · intro h1 h2 h3 h4
    have hcol : ParticleContainer.collision ⟨b, false⟩ p
        = { p with position := ⟨p.position.x, b.z - p.radius⟩,
                   velocity := ⟨p.velocity.x, -p.velocity.y⟩ } := by
      simp only [ParticleContainer.collision]
      rw [if_neg (not_le.mpr h1), if_neg (not_le.mpr h2), if_neg (not_le.mpr h3),
        if_pos h4]
      dsimp only
      rw [if_neg (by simp)]
    rw [hcol]
    refine ⟨?_, rfl, rfl, rfl⟩
    dsimp only
    rw [show b.z - (b.z - p.radius) = p.radius by ring, hmodr']

/-- C3 witness: the spec's own scenario — particle at x = 4.5, radius 5,
left wall at 0, velocity (−3, 0) — ends flush at distance 5 from the left
wall with `velocity.x = +3`. -/
theorem wall_flush_reflection_witness :
    (mod_f32 ((0:ℝ) - 4.5) ≤ 5) ∧ ((5:ℝ) < mod_f32 (1000 - 4.5)) ∧
    ((5:ℝ) < mod_f32 (0 - 500)) ∧ ((5:ℝ) < mod_f32 (1000 - 500)) ∧
    mod_f32 (0 - (ParticleContainer.collision ⟨⟨0, 0, 1000, 1000⟩, false⟩
      ⟨⟨4.5, 500⟩, ⟨-3, 0⟩, ⟨0, 0⟩, 5⟩).position.x) = 5 ∧
    (ParticleContainer.collision ⟨⟨0, 0, 1000, 1000⟩, false⟩
      ⟨⟨4.5, 500⟩, ⟨-3, 0⟩, ⟨0, 0⟩, 5⟩).velocity.x = -(-3) ∧
    (ParticleContainer.collision ⟨⟨0, 0, 1000, 1000⟩, false⟩
      ⟨⟨4.5, 500⟩, ⟨-3, 0⟩, ⟨0, 0⟩, 5⟩).velocity.y = 0 := by
  have hmain := wall_flush_reflection ⟨0, 0, 1000, 1000⟩
    ⟨⟨4.5, 500⟩, ⟨-3, 0⟩, ⟨0, 0⟩, 5⟩ rfl rfl
    (by norm_num) (by norm_num) (by norm_num) (by norm_num) (by norm_num)
  have h := hmain.1 (by norm_num [mod_f32]) (by norm_num [mod_f32])
    (by norm_num [mod_f32]) (by norm_num [mod_f32])
  exact ⟨by norm_num [mod_f32], by norm_num [mod_f32], by norm_num [mod_f32],
    by norm_num [mod_f32], h.1, h.2.1, h.2.2.1⟩

/-- C6: one interaction pass visits exactly the index pairs `(i, j)` with
`i < j < n` — never `i = j` — each exactly once (`Nodup`), in lexicographic
order by index. -/
theorem interaction_pairs_each_once_lex (n : ℕ) :
    (∀ q : ℕ × ℕ, q ∈ interactionPairs n ↔ q.1 < q.2 ∧ q.2 < n) ∧
    (interactionPairs n).Nodup ∧
    (interactionPairs n).Pairwise
      (fun a b => a.1 < b.1 ∨ (a.1 = b.1 ∧ a.2 < b.2)) := by
  have hpair : (interactionPairs n).Pairwise
      (fun a b : ℕ × ℕ => a.1 < b.1 ∨ (a.1 = b.1 ∧ a.2 < b.2)) := by
    unfold interactionPairs
    rw [List.pairwise_flatMap]
    constructor
    · intro a _
      rw [List.pairwise_map]
      exact List.Pairwise.imp (fun h => Or.inr ⟨rfl, h⟩)
        (List.pairwise_lt_range' (a + 1) (n - (a + 1)))
    · refine List.Pairwise.imp ?_ (List.pairwise_lt_range n)
      intro a1 a2 h x hx y hy
      simp only [List.mem_map, List.mem_range'_1] at hx hy
      obtain ⟨j1, hj1, rfl⟩ := hx
      obtain ⟨j2, hj2, rfl⟩ := hy
      exact Or.inl h
  refine ⟨?_, ?_, hpair⟩
  · rintro ⟨i, j⟩
    simp only [interactionPairs, List.mem_flatMap, List.mem_map, List.mem_range,
      List.mem_range'_1, Prod.mk.injEq]
    constructor
    · rintro ⟨a, ha, b, ⟨hb1, hb2⟩, rfl, rfl⟩
      omega
    · rintro ⟨hij, hjn⟩
      exact ⟨i, by omega, j, ⟨by omega, by omega⟩, rfl, rfl⟩
  · exact hpair.imp fun h => by
      rcases h with h | ⟨h1, h2⟩ <;> · intro he; subst he; omega

/-- C6 witness: for three particles the pass visits (0,1) — and indeed the
pair list for n = 3 has no duplicates. -/
theorem interaction_pairs_each_once_lex_witness :
    ((0, 1) ∈ interactionPairs 3 ↔ ((0:ℕ) < 1 ∧ 1 < 3)) ∧
    (interactionPairs 3).Nodup :=
  ⟨(interaction_pairs_each_once_lex 3).1 (0, 1),
   (interaction_pairs_each_once_lex 3).2.1⟩

end Demon
